import Mathlib

/-!
Shallow embedding of `src/train.py` (kbot-phase): the gait phase clock
(`TimestepPhaseObservation.observe`, `FeetPhaseReward.get_reward` /
`gait_phase`), the mixture action head (`Actor.forward`), the recurrent
scan (`KbotWalkingTask.get_ppo_variables`, `get_initial_model_carry`,
`sample_action`, `run_actor`, `run_critic`) and the guarded reward terms.
JAX arrays of reals are embedded as functions `ℕ → ℝ` (a vector) or lists
of such functions (a time series / a stacked carry); `jnp.fmod` is the C
truncation-based fmod on ℝ; Python dictionaries are partial maps
`String → Option _`; a Python `raise` is an `Except.error`.
-/

namespace Kbot

noncomputable section

/-- A numeric vector: a JAX 1-d array, widths tracked at use sites. -/
def Vec : Type := ℕ → ℝ

/-- Truncation toward zero, as C casts and `jnp.int32` do for real inputs. -/
def rtrunc (x : ℝ) : ℤ := if 0 ≤ x then ⌊x⌋ else ⌈x⌉

/-- `jnp.fmod x y`: remainder with the sign of the dividend,
`x - y * trunc (x / y)`. -/
def fmod (x y : ℝ) : ℝ := x - y * (rtrunc (x / y) : ℝ)

/-- `jax.nn.softplus`. -/
def softplus (x : ℝ) : ℝ := Real.log (1 + Real.exp x)

/-- `jnp.concatenate` on the last axis: each segment comes with its width. -/
def vcat : List (Vec × ℕ) → Vec
  | [] => fun _ => 0
  | (v, n) :: rest => fun k => if k < n then v k else vcat rest (k - n)

/-- `jnp.linalg.norm` of the first `n` entries of a vector. -/
def normVec (x : Vec) (n : ℕ) : ℝ := Real.sqrt (∑ i ∈ Finset.range n, x i ^ 2)

/-- Norm of the concatenated linear (width 2) and angular (width 1)
velocity commands, the stand-still gate quantity used throughout. -/
def cmdNorm (vel_cmd ang_vel_cmd : Vec) : ℝ :=
  normVec (vcat [(vel_cmd, 2), (ang_vel_cmd, 1)]) 3

namespace TimestepPhaseObservation

/-- Configuration of `TimestepPhaseObservation` (source defaults). -/
structure Cfg where
  ctrl_dt : ℝ := 0.02
  stand_still_threshold : ℝ := 0

/-- The wrapped per-foot phase pair before the stand-still override
(train.py lines 228-233): `steps = timestep / ctrl_dt`,
`phase_dt = 2 pi * gait_freq * ctrl_dt`, start offsets `(0, pi)`,
then `fmod (phase + pi) (2 pi) - pi`. -/
def rawPhase (cfg : Cfg) (timestep : ℝ) (gait_freq : Vec) : ℝ × ℝ :=
  (fmod ((0 + (timestep / cfg.ctrl_dt) * (2 * Real.pi * gait_freq 0 * cfg.ctrl_dt))
      + Real.pi) (2 * Real.pi) - Real.pi,
   fmod ((Real.pi + (timestep / cfg.ctrl_dt) * (2 * Real.pi * gait_freq 0 * cfg.ctrl_dt))
      + Real.pi) (2 * Real.pi) - Real.pi)

/-- The phase pair with the stand-still override (lines 235-243):
`jnp.where (cmd_norm < threshold) (pi/2, pi) phase`. -/
def phase (cfg : Cfg) (timestep : ℝ) (gait_freq vel_cmd ang_vel_cmd : Vec) : ℝ × ℝ :=
  if cmdNorm vel_cmd ang_vel_cmd < cfg.stand_still_threshold
  then (Real.pi / 2, Real.pi)
  else rawPhase cfg timestep gait_freq

/-- The returned observation (line 245):
`jnp.array([cos phase, sin phase]).flatten()` = (cos p0, cos p1, sin p0, sin p1). -/
def observe (cfg : Cfg) (timestep : ℝ) (gait_freq vel_cmd ang_vel_cmd : Vec) :
    ℝ × ℝ × ℝ × ℝ :=
  (Real.cos (phase cfg timestep gait_freq vel_cmd ang_vel_cmd).1,
   Real.cos (phase cfg timestep gait_freq vel_cmd ang_vel_cmd).2,
   Real.sin (phase cfg timestep gait_freq vel_cmd ang_vel_cmd).1,
   Real.sin (phase cfg timestep gait_freq vel_cmd ang_vel_cmd).2)

end TimestepPhaseObservation

/-! Concrete inputs used by witnesses and counterexamples. -/

/-- Observation config at the task's configured threshold 0.01. -/
def cfgC : TimestepPhaseObservation.Cfg := { ctrl_dt := 0.02, stand_still_threshold := 0.01 }

/-- Gait frequency command fixed at 1 Hz. -/
def gf1 : Vec := fun _ => 1

/-- Linear velocity command (1, 0). -/
def vel1 : Vec := fun k => if k = 0 then 1 else 0

/-- Angular velocity command (0). -/
def ang0 : Vec := fun _ => 0

/-- Zero linear velocity command. -/
def vel0 : Vec := fun _ => 0

theorem cmdNorm_vel1 : cmdNorm vel1 ang0 = 1 := by
  have : (1 : ℝ) ^ 2 + 0 ^ 2 + 0 ^ 2 = 1 := by norm_num
  simp only [cmdNorm, normVec, vcat, vel1, ang0, Finset.sum_range_succ,
    Finset.sum_range_zero]
  norm_num

theorem cmdNorm_vel0 : cmdNorm vel0 ang0 = 0 := by
  simp only [cmdNorm, normVec, vcat, vel0, ang0, Finset.sum_range_succ,
    Finset.sum_range_zero]
  norm_num

/-! Arithmetic facts about the truncation-based `fmod` used by the wrap. -/

theorem rtrunc_of_nonneg {x : ℝ} (hx : 0 ≤ x) : rtrunc x = ⌊x⌋ := if_pos hx

theorem fmod_eq_fract_mul {x y : ℝ} (hx : 0 ≤ x) (hy : 0 < y) :
    fmod x y = y * Int.fract (x / y) := by
  unfold fmod
  rw [rtrunc_of_nonneg (div_nonneg hx hy.le), Int.fract]
  rw [mul_sub, mul_comm y (x / y), div_mul_cancel₀ x hy.ne']

theorem fmod_mem_Ico {x y : ℝ} (hx : 0 ≤ x) (hy : 0 < y) :
    fmod x y ∈ Set.Ico 0 y := by
  rw [fmod_eq_fract_mul hx hy]
  refine Set.mem_Ico.mpr ⟨mul_nonneg hy.le (Int.fract_nonneg _), ?_⟩
  calc y * Int.fract (x / y) < y * 1 := by
        exact mul_lt_mul_of_pos_left (Int.fract_lt_one _) hy
    _ = y := mul_one y

theorem fmod_add_period {x y : ℝ} (hx : 0 ≤ x) (hy : 0 < y) :
    fmod (x + y) y = fmod x y := by
  unfold fmod
  rw [rtrunc_of_nonneg (div_nonneg (by linarith) hy.le),
      rtrunc_of_nonneg (div_nonneg hx hy.le)]
  have h1 : (x + y) / y = x / y + 1 := by field_simp
  rw [h1, Int.floor_add_one]
  push_cast
  ring

theorem fmod_self_eq_zero {y : ℝ} (hy : 0 < y) : fmod y y = 0 := by
  unfold fmod
  rw [div_self hy.ne', rtrunc_of_nonneg (by norm_num : (0:ℝ) ≤ 1)]
  simp

/-- The wrap `fmod (p + pi) (2 pi) - pi` of a nonnegative unwrapped phase
lands in the half-open interval `[-pi, pi)`. -/
theorem wrap_mem_Ico {p : ℝ} (hp : 0 ≤ p) :
    fmod (p + Real.pi) (2 * Real.pi) - Real.pi ∈ Set.Ico (-Real.pi) Real.pi := by
  have hpi := Real.pi_pos
  have h := fmod_mem_Ico (x := p + Real.pi) (y := 2 * Real.pi) (by linarith) (by linarith)
  rw [Set.mem_Ico] at h ⊢
  constructor <;> linarith [h.1, h.2]

/-- C2: in `TimestepPhaseObservation.observe`, whenever the norm of the
concatenated linear and angular velocity commands is strictly below the
stand-still threshold, the phase pair is overridden to the frozen value
`(pi/2, pi)` and the returned cos/sin observation is the constant
`(0, -1, 1, 0)`, for every elapsed time and gait frequency. -/
theorem observe_stand_still_override (cfg : TimestepPhaseObservation.Cfg)
    (timestep : ℝ) (gait_freq vel_cmd ang_vel_cmd : Vec)
    (h : cmdNorm vel_cmd ang_vel_cmd < cfg.stand_still_threshold) :
    TimestepPhaseObservation.phase cfg timestep gait_freq vel_cmd ang_vel_cmd
        = (Real.pi / 2, Real.pi) ∧
    TimestepPhaseObservation.observe cfg timestep gait_freq vel_cmd ang_vel_cmd
        = (0, -1, 1, 0) := by
  have hp : TimestepPhaseObservation.phase cfg timestep gait_freq vel_cmd ang_vel_cmd
      = (Real.pi / 2, Real.pi) := by
    unfold TimestepPhaseObservation.phase
    exact if_pos h
  refine ⟨hp, ?_⟩
  unfold TimestepPhaseObservation.observe
  rw [hp]
  simp [Real.cos_pi_div_two, Real.cos_pi, Real.sin_pi_div_two, Real.sin_pi]

/-- Witness for C2: with zero commands and threshold 0.01 the override fires
and the observation is the frozen constant, at elapsed time 7 and frequency 1. -/
theorem observe_stand_still_override_witness :
    cmdNorm vel0 ang0 < cfgC.stand_still_threshold ∧
    TimestepPhaseObservation.observe cfgC 7 gf1 vel0 ang0 = (0, -1, 1, 0) := by
  have h : cmdNorm vel0 ang0 < cfgC.stand_still_threshold := by
    rw [cmdNorm_vel0]; norm_num [cfgC]
  exact ⟨h, (observe_stand_still_override cfgC 7 gf1 vel0 ang0 h).2⟩

/-- Configuration of `FeetPhaseReward` (source defaults, lines 252-261). -/
structure FeetPhaseRewardCfg where
  feet_pos_obs_name : String := "feet_position_observation"
  linear_velocity_cmd_name : String := "linear_velocity_command"
  angular_velocity_cmd_name : String := "angular_velocity_command"
  gait_freq_cmd_name : String := "gait_frequency_command"
  max_foot_height : ℝ := 0.12
  ctrl_dt : ℝ := 0.02
  sensitivity : ℝ := 0.01
  foot_default_height : ℝ := 0
  stand_still_threshold : ℝ := 0

/-- The per-foot phase pair generated inside `FeetPhaseReward.get_reward`
(lines 270-278): `steps = jnp.int32 (timestep / ctrl_dt)` truncates to an
integer before multiplying by `phase_dt = 2 pi * gait_freq * ctrl_dt`. -/
def FeetPhaseReward.phaseAt (R : FeetPhaseRewardCfg) (gait_freq : Vec) (timestep : ℝ) :
    ℝ × ℝ :=
  (fmod ((0 + (rtrunc (timestep / R.ctrl_dt) : ℝ) * (2 * Real.pi * gait_freq 0 * R.ctrl_dt))
      + Real.pi) (2 * Real.pi) - Real.pi,
   fmod ((Real.pi + (rtrunc (timestep / R.ctrl_dt) : ℝ) * (2 * Real.pi * gait_freq 0 * R.ctrl_dt))
      + Real.pi) (2 * Real.pi) - Real.pi)

/-- The all-default `FeetPhaseReward` configuration. -/
def feetPhaseCfg0 : FeetPhaseRewardCfg := {}

/-- C4 amended: with the stand-still override not triggered, every phase
value produced by the phase clock (observation path and reward path) lies
in the half-open interval `[-pi, pi)` — not `(-pi, pi]`: the wrap
`fmod (x + pi) (2 pi) - pi` of a nonnegative `x` attains `-pi` (at phase
multiples of `2 pi`) and never attains `pi`. -/
theorem phase_range_amended (cfg : TimestepPhaseObservation.Cfg) (R : FeetPhaseRewardCfg)
    (timestep : ℝ) (gait_freq vel_cmd ang_vel_cmd : Vec)
    (ht : 0 ≤ timestep) (hf : 0 < gait_freq 0)
    (hdt : 0 < cfg.ctrl_dt) (hrdt : 0 < R.ctrl_dt)
    (hcmd : ¬ cmdNorm vel_cmd ang_vel_cmd < cfg.stand_still_threshold) :
    (TimestepPhaseObservation.phase cfg timestep gait_freq vel_cmd ang_vel_cmd).1
        ∈ Set.Ico (-Real.pi) Real.pi ∧
    (TimestepPhaseObservation.phase cfg timestep gait_freq vel_cmd ang_vel_cmd).2
        ∈ Set.Ico (-Real.pi) Real.pi ∧
    (FeetPhaseReward.phaseAt R gait_freq timestep).1 ∈ Set.Ico (-Real.pi) Real.pi ∧
    (FeetPhaseReward.phaseAt R gait_freq timestep).2 ∈ Set.Ico (-Real.pi) Real.pi := by
  have hpi := Real.pi_pos
  have hX : 0 ≤ (timestep / cfg.ctrl_dt) * (2 * Real.pi * gait_freq 0 * cfg.ctrl_dt) := by
    have h1 : 0 ≤ timestep / cfg.ctrl_dt := div_nonneg ht hdt.le
    have h2 : 0 ≤ 2 * Real.pi * gait_freq 0 * R.ctrl_dt := by positivity
    positivity
  have hsteps : (0 : ℝ) ≤ (rtrunc (timestep / R.ctrl_dt) : ℝ) := by
    rw [rtrunc_of_nonneg (div_nonneg ht hrdt.le)]
    exact_mod_cast Int.floor_nonneg.mpr (div_nonneg ht hrdt.le)
  have hY : 0 ≤ (rtrunc (timestep / R.ctrl_dt) : ℝ) * (2 * Real.pi * gait_freq 0 * R.ctrl_dt) := by
    positivity
  unfold TimestepPhaseObservation.phase
  rw [if_neg hcmd]
  unfold TimestepPhaseObservation.rawPhase FeetPhaseReward.phaseAt
  refine ⟨wrap_mem_Ico (by linarith), wrap_mem_Ico (by linarith),
    wrap_mem_Ico (by linarith), wrap_mem_Ico (by linarith)⟩

/-- Counterexample to C4 as stated: at elapsed time 0 with gait frequency 1
and a non-stand-still command, the right-foot phase computed by
`TimestepPhaseObservation.phase` is exactly `-pi`, which is outside the
claimed interval `(-pi, pi]`. -/
theorem phase_not_in_Ioc_at_zero :
    (TimestepPhaseObservation.phase cfgC 0 gf1 vel1 ang0).2 ∉
      Set.Ioc (-Real.pi) Real.pi := by
  have hpi := Real.pi_pos
  have hval : (TimestepPhaseObservation.phase cfgC 0 gf1 vel1 ang0).2 = -Real.pi := by
    unfold TimestepPhaseObservation.phase
    rw [if_neg (by rw [cmdNorm_vel1]; norm_num [cfgC])]
    unfold TimestepPhaseObservation.rawPhase
    have harg : (Real.pi + (0 / cfgC.ctrl_dt) * (2 * Real.pi * gf1 0 * cfgC.ctrl_dt))
        + Real.pi = 2 * Real.pi := by
      rw [zero_div]; ring
    show fmod ((Real.pi + (0 / cfgC.ctrl_dt) * (2 * Real.pi * gf1 0 * cfgC.ctrl_dt))
        + Real.pi) (2 * Real.pi) - Real.pi = -Real.pi
    rw [harg, fmod_self_eq_zero (by linarith)]
    ring
  rw [hval, Set.mem_Ioc]
  intro h
  exact lt_irrefl _ h.1

/-- Witness for the amended C4 at elapsed time 0, gait frequency 1,
command (1, 0, 0), thresholds as configured. -/
theorem phase_range_amended_witness :
    (TimestepPhaseObservation.phase cfgC 0 gf1 vel1 ang0).1
        ∈ Set.Ico (-Real.pi) Real.pi ∧
    (TimestepPhaseObservation.phase cfgC 0 gf1 vel1 ang0).2
        ∈ Set.Ico (-Real.pi) Real.pi ∧
    (FeetPhaseReward.phaseAt feetPhaseCfg0 gf1 0).1 ∈ Set.Ico (-Real.pi) Real.pi ∧
    (FeetPhaseReward.phaseAt feetPhaseCfg0 gf1 0).2 ∈ Set.Ico (-Real.pi) Real.pi :=
  phase_range_amended cfgC feetPhaseCfg0 0 gf1 vel1 ang0
    (by norm_num) (by norm_num [gf1]) (by norm_num [cfgC]) (by norm_num [feetPhaseCfg0])
    (by rw [cmdNorm_vel1]; norm_num [cfgC])

/-- C5 amended: the phase clock is periodic in elapsed time with period
`1 / f` (one gait cycle), not `2 pi / f`: the unwrapped phase advances as
`2 pi * f * t`, so adding `1 / f` to `t` adds exactly `2 pi`. -/
theorem phase_periodic_one_over_f (cfg : TimestepPhaseObservation.Cfg)
    (timestep : ℝ) (gait_freq vel_cmd ang_vel_cmd : Vec)
    (ht : 0 ≤ timestep) (hf : 0 < gait_freq 0) (hdt : 0 < cfg.ctrl_dt)
    (hcmd : ¬ cmdNorm vel_cmd ang_vel_cmd < cfg.stand_still_threshold) :
    TimestepPhaseObservation.phase cfg (timestep + 1 / gait_freq 0)
        gait_freq vel_cmd ang_vel_cmd
      = TimestepPhaseObservation.phase cfg timestep gait_freq vel_cmd ang_vel_cmd := by
  have hpi := Real.pi_pos
  unfold TimestepPhaseObservation.phase
  rw [if_neg hcmd, if_neg hcmd]
  unfold TimestepPhaseObservation.rawPhase
  have key : ((timestep + 1 / gait_freq 0) / cfg.ctrl_dt)
        * (2 * Real.pi * gait_freq 0 * cfg.ctrl_dt)
      = (timestep / cfg.ctrl_dt) * (2 * Real.pi * gait_freq 0 * cfg.ctrl_dt)
        + 2 * Real.pi := by
    field_simp
    ring
  have hX : 0 ≤ (timestep / cfg.ctrl_dt) * (2 * Real.pi * gait_freq 0 * cfg.ctrl_dt) := by
    have h1 : 0 ≤ timestep / cfg.ctrl_dt := div_nonneg ht hdt.le
    positivity
  rw [key]
  have e0 : (0 + ((timestep / cfg.ctrl_dt) * (2 * Real.pi * gait_freq 0 * cfg.ctrl_dt)
        + 2 * Real.pi)) + Real.pi
      = ((0 + (timestep / cfg.ctrl_dt) * (2 * Real.pi * gait_freq 0 * cfg.ctrl_dt))
        + Real.pi) + 2 * Real.pi := by ring
  have e1 : (Real.pi + ((timestep / cfg.ctrl_dt) * (2 * Real.pi * gait_freq 0 * cfg.ctrl_dt)
        + 2 * Real.pi)) + Real.pi
      = ((Real.pi + (timestep / cfg.ctrl_dt) * (2 * Real.pi * gait_freq 0 * cfg.ctrl_dt))
        + Real.pi) + 2 * Real.pi := by ring
  rw [e0, e1, fmod_add_period (by linarith) (by linarith),
    fmod_add_period (by linarith) (by linarith)]

/-! The desired-foot-height interpolant of `FeetPhaseReward.gait_phase`. -/

/-- Modelled from the spec: `xax.cubic_bezier_interpolation` is library code
external to this repository; the spec describes it as the standard
smoothstep-like cubic Bezier interpolant that starts and ends at the given
endpoints with zero derivative there:
`y_start + (y_end - y_start) * (x^3 + 3 * (x^2 * (1 - x)))`. -/
def cubic_bezier_interpolation (y_start y_end x : ℝ) : ℝ :=
  y_start + (y_end - y_start) * (x ^ 3 + 3 * (x ^ 2 * (1 - x)))

/-- `jnp.clip x lo hi`. -/
def clip (x lo hi : ℝ) : ℝ := min (max x lo) hi

/-- The normalized phase `x = clip ((phi + pi) / (2 pi)) 0 1` computed at
the start of `FeetPhaseReward.gait_phase` (lines 307-308). -/
def gaitX (phi : ℝ) : ℝ := clip ((phi + Real.pi) / (2 * Real.pi)) 0 1

/-- `FeetPhaseReward.gait_phase` (lines 296-311): for `x ≤ 0.5` the foot
rises from 0 to `swing_height` along the Bezier branch at `2 x`; otherwise
it descends back to 0 along the branch at `2 x - 1`
(`jnp.where (x <= 0.5) stance swing`). -/
def gait_phase (phi swing_height : ℝ) : ℝ :=
  if gaitX phi ≤ 0.5 then cubic_bezier_interpolation 0 swing_height (2 * gaitX phi)
  else cubic_bezier_interpolation swing_height 0 (2 * gaitX phi - 1)

theorem gaitX_neg_pi : gaitX (-Real.pi) = 0 := by
  unfold gaitX clip
  rw [neg_add_cancel, zero_div]
  norm_num

theorem gaitX_pi : gaitX Real.pi = 1 := by
  unfold gaitX clip
  rw [show Real.pi + Real.pi = 2 * Real.pi by ring, div_self (by positivity)]
  norm_num

theorem continuous_gaitX : Continuous gaitX := by
  unfold gaitX clip
  exact (((continuous_id.add continuous_const).div_const _).max continuous_const).min
    continuous_const

theorem continuous_cbi_comp {u : ℝ → ℝ} (hu : Continuous u) (a b : ℝ) :
    Continuous fun t => cubic_bezier_interpolation a b (u t) := by
  unfold cubic_bezier_interpolation
  exact continuous_const.add (continuous_const.mul (((hu.pow 3)).add
    (continuous_const.mul ((hu.pow 2).mul (continuous_const.sub hu)))))

/-- C7: for every `swing_height`, `FeetPhaseReward.gait_phase` is exactly 0
at `phi = -pi` (normalized phase `x = 0`) and at `phi = pi` (`x = 1`); the
rising branch at `x = 0.5` and the descending branch at `x = 0.5` both equal
`swing_height`; and `gait_phase` is continuous (in particular at the branch
boundary `x = 0.5`, i.e. `phi = 0`). -/
theorem gait_phase_boundary_continuous (s : ℝ) :
    gait_phase (-Real.pi) s = 0 ∧ gait_phase Real.pi s = 0 ∧
    cubic_bezier_interpolation 0 s (2 * (1 / 2 : ℝ)) = s ∧
    cubic_bezier_interpolation s 0 (2 * (1 / 2 : ℝ) - 1) = s ∧
    Continuous fun phi => gait_phase phi s := by
  refine ⟨?_, ?_, ?_, ?_, ?_⟩
  · unfold gait_phase
    rw [gaitX_neg_pi]
    norm_num [cubic_bezier_interpolation]
  · unfold gait_phase
    rw [gaitX_pi]
    norm_num [cubic_bezier_interpolation]
  · norm_num [cubic_bezier_interpolation]
  · norm_num [cubic_bezier_interpolation]
  · unfold gait_phase
    refine Continuous.if_le
      (continuous_cbi_comp (continuous_const.mul continuous_gaitX) 0 s)
      (continuous_cbi_comp ((continuous_const.mul continuous_gaitX).sub continuous_const) s 0)
      continuous_gaitX continuous_const ?_
    intro a ha
    rw [ha]
    norm_num [cubic_bezier_interpolation]

/-- Counterexample to C5 as stated: at `t = 0`, `f = 1`, the phase at
`t + 2 pi / f` differs from the phase at `t` (the true period is `1 / f`). -/
theorem phase_not_two_pi_periodic :
    TimestepPhaseObservation.phase cfgC (0 + 2 * Real.pi / gf1 0) gf1 vel1 ang0 ≠
      TimestepPhaseObservation.phase cfgC 0 gf1 vel1 ang0 := by
  have hpi := Real.pi_pos
  have hno : ¬ cmdNorm vel1 ang0 < cfgC.stand_still_threshold := by
    rw [cmdNorm_vel1]; norm_num [cfgC]
  have hdtne : (cfgC.ctrl_dt : ℝ) ≠ 0 := by norm_num [cfgC]
  have hfne : (gf1 0 : ℝ) ≠ 0 := by norm_num [gf1]
  -- left foot phase at t = 0 is 0
  have hz : (TimestepPhaseObservation.phase cfgC 0 gf1 vel1 ang0).1 = 0 := by
    unfold TimestepPhaseObservation.phase
    rw [if_neg hno]
    unfold TimestepPhaseObservation.rawPhase
    show fmod ((0 + (0 / cfgC.ctrl_dt) * (2 * Real.pi * gf1 0 * cfgC.ctrl_dt))
        + Real.pi) (2 * Real.pi) - Real.pi = 0
    have harg : (0 + ((0 : ℝ) / cfgC.ctrl_dt) * (2 * Real.pi * gf1 0 * cfgC.ctrl_dt))
        + Real.pi = Real.pi := by rw [zero_div]; ring
    rw [harg]
    unfold fmod
    have hdiv : Real.pi / (2 * Real.pi) = 1 / 2 := by
      rw [div_eq_iff (by positivity : (2 * Real.pi) ≠ 0)]
      ring
    rw [hdiv, rtrunc_of_nonneg (by norm_num : (0:ℝ) ≤ 1 / 2)]
    norm_num
  -- left foot phase at t = 2 pi is 4 pi^2 - 12 pi, which is positive
  have hw : (TimestepPhaseObservation.phase cfgC (0 + 2 * Real.pi / gf1 0) gf1 vel1 ang0).1
      = 4 * Real.pi ^ 2 - 12 * Real.pi := by
    unfold TimestepPhaseObservation.phase
    rw [if_neg hno]
    unfold TimestepPhaseObservation.rawPhase
    show fmod ((0 + ((0 + 2 * Real.pi / gf1 0) / cfgC.ctrl_dt)
        * (2 * Real.pi * gf1 0 * cfgC.ctrl_dt)) + Real.pi) (2 * Real.pi) - Real.pi
      = 4 * Real.pi ^ 2 - 12 * Real.pi
    have harg : (0 + ((0 + 2 * Real.pi / gf1 0) / cfgC.ctrl_dt)
        * (2 * Real.pi * gf1 0 * cfgC.ctrl_dt)) + Real.pi
        = 4 * Real.pi ^ 2 + Real.pi := by
      field_simp
      ring
    rw [harg]
    unfold fmod
    have hdiv : (4 * Real.pi ^ 2 + Real.pi) / (2 * Real.pi) = 2 * Real.pi + 1 / 2 := by
      rw [div_eq_iff (by positivity : (2 * Real.pi) ≠ 0)]
      ring
    have hfloor : ⌊(2 * Real.pi + 1 / 2 : ℝ)⌋ = 6 := by
      rw [Int.floor_eq_iff]
      constructor
      · have := Real.pi_gt_three
        push_cast
        linarith
      · have := Real.pi_lt_d2
        push_cast
        linarith
    rw [hdiv, rtrunc_of_nonneg (by have := Real.pi_gt_three; linarith), hfloor]
    push_cast
    ring
  intro h
  have h1 := congrArg Prod.fst h
  rw [hw, hz] at h1
  have h3 := Real.pi_gt_three
  nlinarith [h1]

/-- Witness for the amended C5: at elapsed time 2 with gait frequency 1,
advancing time by one period `1 / f` reproduces the phase exactly. -/
theorem phase_periodic_one_over_f_witness :
    TimestepPhaseObservation.phase cfgC (2 + 1 / gf1 0) gf1 vel1 ang0
      = TimestepPhaseObservation.phase cfgC 2 gf1 vel1 ang0 :=
  phase_periodic_one_over_f cfgC 2 gf1 vel1 ang0 (by norm_num)
    (by norm_num [gf1]) (by norm_num [cfgC]) (by rw [cmdNorm_vel1]; norm_num [cfgC])

/-! The actor/critic networks, the mixture action head, and the recurrent
evaluator (`run_actor`, `run_critic`, `sample_action`, `get_ppo_variables`). -/

/-- `NUM_JOINTS` (line 23). -/
def NUM_JOINTS : ℕ := 20

/-- `math.radians`. -/
def radians (x : ℝ) : ℝ := x * Real.pi / 180

/-- The neutral-pose offsets `ZEROS` (lines 34-55), values in network
output order. -/
def ZEROS : List ℝ :=
  [0, radians (-10), 0, radians 15, 0,
   0, radians 10, 0, radians (-15), 0,
   radians (-25), radians (-5), 0, radians (-50), radians 25,
   radians 25, radians 5, 0, radians 50, radians (-25)]

/-- The per-joint neutral offset `jnp.array([v for _, v in ZEROS])[j]`. -/
def zerosVal (j : ℕ) : ℝ := ZEROS.getD j 0

/-- `ksim.MixtureOfGaussians` parameters (line 642): per joint, per mixture
component means, standard deviations and unnormalized logits. -/
structure MixtureOfGaussians where
  means_nm : ℕ → ℕ → ℝ
  stds_nm : ℕ → ℕ → ℝ
  logits_nm : ℕ → ℕ → ℝ

/-- The spread transform of `Actor.forward` (line 637):
`jnp.clip ((jax.nn.softplus raw + min_std) * var_scale, max = max_std)`. -/
def stdTransform (min_std max_std var_scale raw : ℝ) : ℝ :=
  min ((softplus raw + min_std) * var_scale) max_std

/-- `Actor` (lines 561-644). The learned layers (the `eqx.nn.Linear` input
and output projections and the stacked `eqx.nn.GRUCell`s) are arbitrary
functions: every theorem below holds for every choice of weights. -/
structure Actor where
  input_proj : Vec → Vec
  rnns : List (Vec → Vec → Vec)
  output_proj : Vec → Vec
  num_mixtures : ℕ
  min_std : ℝ
  max_std : ℝ
  var_scale : ℝ

/-- The loop `for i, rnn in enumerate(self.rnns): x = rnn(x, carry[i]);
out_carries.append(x)` (lines 624-627 and 694-697). -/
def runRnns : List (Vec → Vec → Vec) → Vec → List Vec → Vec × List Vec
  | [], x, _ => (x, [])
  | r :: rs, x, carry =>
      ((runRnns rs (r x (carry.headD (fun _ => 0))) carry.tail).1,
       r x (carry.headD (fun _ => 0)) ::
         (runRnns rs (r x (carry.headD (fun _ => 0))) carry.tail).2)

theorem runRnns_length (rs : List (Vec → Vec → Vec)) (x : Vec) (carry : List Vec) :
    (runRnns rs x carry).2.length = rs.length := by
  induction rs generalizing x carry with
  | nil => rfl
  | cons r rs ih => simp [runRnns, ih]

/-- `Actor.forward` (lines 622-644): run the projections and the RNN stack,
slice the output into means/stds/logits of shape `(NUM_JOINTS, num_mixtures)`
(row-major index `j * num_mixtures + m` at slice offsets `0`, `slice_len`,
`slice_len * 2`), apply the spread transform and the neutral-pose mean bias,
and return the stacked out-carries. -/
def Actor.forward (A : Actor) (obs_n : Vec) (carry : List Vec) :
    MixtureOfGaussians × List Vec :=
  ({ means_nm := fun j m =>
       (A.output_proj (runRnns A.rnns (A.input_proj obs_n) carry).1)
           (j * A.num_mixtures + m) + zerosVal j,
     stds_nm := fun j m =>
       stdTransform A.min_std A.max_std A.var_scale
         ((A.output_proj (runRnns A.rnns (A.input_proj obs_n) carry).1)
           (NUM_JOINTS * A.num_mixtures + (j * A.num_mixtures + m))),
     logits_nm := fun j m =>
       (A.output_proj (runRnns A.rnns (A.input_proj obs_n) carry).1)
         (NUM_JOINTS * A.num_mixtures * 2 + (j * A.num_mixtures + m)) },
   (runRnns A.rnns (A.input_proj obs_n) carry).2)

/-- `Critic` (lines 647-700), layers abstracted exactly as for `Actor`. -/
structure Critic where
  input_proj : Vec → Vec
  rnns : List (Vec → Vec → Vec)
  output_proj : Vec → Vec

/-- `Critic.forward` (lines 692-700). -/
def Critic.forward (C : Critic) (obs_n : Vec) (carry : List Vec) : Vec × List Vec :=
  (C.output_proj (runRnns C.rnns (C.input_proj obs_n) carry).1,
   (runRnns C.rnns (C.input_proj obs_n) carry).2)

/-- `Model` (lines 703-734). -/
structure Model where
  actor : Actor
  critic : Critic

theorem softplus_pos (x : ℝ) : 0 < softplus x := by
  unfold softplus
  apply Real.log_pos
  linarith [Real.exp_pos x]

theorem stdTransform_mem {min_std max_std var_scale : ℝ} (raw : ℝ)
    (hmin : 0 ≤ min_std) (hvs : 0 < var_scale) (hle : min_std * var_scale ≤ max_std) :
    stdTransform min_std max_std var_scale raw
      ∈ Set.Icc (min_std * var_scale) max_std := by
  unfold stdTransform
  refine Set.mem_Icc.mpr ⟨le_min ?_ hle, min_le_right _ _⟩
  have h1 : min_std ≤ softplus raw + min_std := by linarith [softplus_pos raw]
  exact mul_le_mul_of_nonneg_right h1 hvs.le

/-- C3: in `Actor.forward`, for every raw pre-activation output (every
weight assignment, observation and carry), each per-joint spread equals
`clip ((softplus raw + min_std) * var_scale, max = max_std)` and lies in the
closed interval `[min_std * var_scale, max_std]` (the configured floor; the
embedding in ℝ also shows the value is a well-defined real number — no NaN). -/
theorem actor_forward_std_bounded (A : Actor) (obs_n : Vec) (carry : List Vec)
    (j m : ℕ) (hmin : 0 ≤ A.min_std) (hvs : 0 < A.var_scale)
    (hle : A.min_std * A.var_scale ≤ A.max_std) :
    (A.forward obs_n carry).1.stds_nm j m
        = stdTransform A.min_std A.max_std A.var_scale
            ((A.output_proj (runRnns A.rnns (A.input_proj obs_n) carry).1)
              (NUM_JOINTS * A.num_mixtures + (j * A.num_mixtures + m))) ∧
    (A.forward obs_n carry).1.stds_nm j m
        ∈ Set.Icc (A.min_std * A.var_scale) A.max_std :=
  ⟨rfl, stdTransform_mem _ hmin hvs hle⟩

/-- A concrete actor at the configuration of `get_model` (lines 997-1007):
`min_std = 0.01`, `max_std = 1.0`, `var_scale = 1.0`, `num_mixtures = 5`. -/
def actor1 : Actor :=
  { input_proj := fun v => v, rnns := [fun x _ => x], output_proj := fun v => v,
    num_mixtures := 5, min_std := 0.01, max_std := 1, var_scale := 1 }

/-- The zero vector. -/
def vec0 : Vec := fun _ => 0

/-- Witness for C3 at the configured values: the spread of joint 0,
mixture 0 lies in `[0.01, 1]` (here `min_std * var_scale = 0.01`, the
configured minimum spread). -/
theorem actor_forward_std_bounded_witness :
    (0 : ℝ) ≤ 0.01 ∧ (0 : ℝ) < 1 ∧ (0.01 * 1 : ℝ) ≤ 1 ∧
    (actor1.forward vec0 []).1.stds_nm 0 0 ∈ Set.Icc ((0.01 : ℝ) * 1) 1 := by
  have h := (actor_forward_std_bounded actor1 vec0 [] 0 0
    (by norm_num [actor1]) (by norm_num [actor1]) (by norm_num [actor1])).2
  exact ⟨by norm_num, by norm_num, by norm_num, by simpa [actor1] using h⟩

/-! Observation/command dictionaries and the recurrent evaluator. -/

/-- A Python dict of named vectors. -/
def Smap : Type := String → Option Vec

/-- Dictionary access `m[k]`; the caller guarantees the key is present
(a missing key would raise `KeyError` in the source). -/
def dget (m : Smap) (k : String) : Vec := (m k).getD (fun _ => 0)

/-- `KbotWalkingTask.run_actor` (lines 1009-1043): concatenate exactly the
nine actor inputs, in source order and widths, and run `Actor.forward`. -/
def run_actor (model : Actor) (observations commands : Smap) (carry : List Vec) :
    MixtureOfGaussians × List Vec :=
  model.forward
    (vcat [(dget observations "timestep_phase_observation", 4),
           (dget observations "joint_position_observation", NUM_JOINTS),
           (dget observations "joint_velocity_observation", NUM_JOINTS),
           (dget observations "projected_gravity_observation", 3),
           (dget observations "sensor_observation_imu_acc", 3),
           (dget observations "sensor_observation_imu_gyro", 3),
           (dget commands "linear_velocity_command", 2),
           (dget commands "angular_velocity_command", 1),
           (dget commands "gait_frequency_command", 1)])
    carry

/-- `KbotWalkingTask.run_critic` (lines 1045-1091): the nine actor inputs
plus the privileged fields, with joint velocity scaled by 1/10 and actuator
force by 1/100. -/
def run_critic (model : Critic) (observations commands : Smap) (carry : List Vec) :
    Vec × List Vec :=
  model.forward
    (vcat [(dget observations "timestep_phase_observation", 4),
           (dget observations "joint_position_observation", NUM_JOINTS),
           (fun k => dget observations "joint_velocity_observation" k / 10, NUM_JOINTS),
           (dget observations "projected_gravity_observation", 3),
           (dget observations "sensor_observation_imu_acc", 3),
           (dget observations "sensor_observation_imu_gyro", 3),
           (dget commands "linear_velocity_command", 2),
           (dget commands "angular_velocity_command", 1),
           (dget commands "gait_frequency_command", 1),
           (dget observations "feet_contact_observation", 4),
           (dget observations "feet_position_observation", 6),
           (dget observations "base_position_observation", 3),
           (dget observations "base_orientation_observation", 4),
           (dget observations "base_linear_velocity_observation", 3),
           (dget observations "base_angular_velocity_observation", 3),
           (fun k => dget observations "actuator_force_observation" k / 100, NUM_JOINTS)])
    carry

theorem run_actor_carry_length (model : Actor) (o c : Smap) (carry : List Vec) :
    (run_actor model o c carry).2.length = model.rnns.length := by
  unfold run_actor Actor.forward
  exact runRnns_length _ _ _

theorem run_critic_carry_length (model : Critic) (o c : Smap) (carry : List Vec) :
    (run_critic model o c carry).2.length = model.rnns.length := by
  unfold run_critic Critic.forward
  exact runRnns_length _ _ _

/-- External semantics of the `ksim`/`distrax` distribution operations used
on a `MixtureOfGaussians`: log density, sampling (with the random key
embedded as a natural number) and mode are arbitrary functions of the
distribution parameters. -/
structure MixtureSem where
  log_prob : MixtureOfGaussians → Vec → ℝ
  sample : MixtureOfGaussians → ℕ → Vec
  mode : MixtureOfGaussians → Vec

/-- The result record `ksim.Action` (lines 1165-1169). -/
structure Action where
  action : Vec
  carry : List Vec × List Vec
  aux_outputs : Option Unit

/-- `KbotWalkingTask.sample_action` (lines 1143-1169): run the actor on the
input actor carry, take mode or a sample, and return the updated actor carry
paired with the UNCHANGED input critic carry. -/
def sample_action (sem : MixtureSem) (model : Model)
    (model_carry : List Vec × List Vec) (observations commands : Smap)
    (rng : ℕ) (argmax : Bool) : Action :=
  { action :=
      if argmax then sem.mode (run_actor model.actor observations commands model_carry.1).1
      else sem.sample (run_actor model.actor observations commands model_carry.1).1 rng,
    carry := ((run_actor model.actor observations commands model_carry.1).2, model_carry.2),
    aux_outputs := none }

/-- One per-timestep slice of the trajectory as the scan body of
`get_ppo_variables` sees it. -/
structure Transition where
  obs : Smap
  command : Smap
  action : Vec
  done : Bool

/-- `ksim.PPOVariables` (lines 1120-1123). -/
structure PPOVariables where
  log_probs : ℝ
  values : ℝ

/-- `get_initial_model_carry` (lines 1137-1141): a pair of all-zero carries
of shape `(depth, hidden_size)` (a vector is a function here, so the zero
array of each layer is the zero function). -/
def get_initial_model_carry (depth hidden_size : ℕ) : List Vec × List Vec :=
  (List.replicate depth (fun _ => 0), List.replicate depth (fun _ => 0))

/-- `jnp.where (done, x, y)` with a scalar `done` broadcast over one carry
array: a per-element select between reset value and carried value. -/
def whereVec (done : Bool) (x y : Vec) : Vec := fun j => if done then x j else y j

def whereCarry (done : Bool) (x y : List Vec) : List Vec :=
  List.zipWith (whereVec done) x y

/-- The `jax.tree.map` select over the carry pair (lines 1125-1129). -/
def selectNextCarry (done : Bool) (init fresh : List Vec × List Vec) :
    List Vec × List Vec :=
  (whereCarry done init.1 fresh.1, whereCarry done init.2 fresh.2)

/-- The body `scan_fn` of `get_ppo_variables` (lines 1100-1131). -/
def scan_fn (sem : MixtureSem) (model : Model) (depth hidden_size : ℕ)
    (actor_critic_carry : List Vec × List Vec) (transition : Transition) :
    (List Vec × List Vec) × PPOVariables :=
  (selectNextCarry transition.done (get_initial_model_carry depth hidden_size)
     ((run_actor model.actor transition.obs transition.command actor_critic_carry.1).2,
      (run_critic model.critic transition.obs transition.command actor_critic_carry.2).2),
   { log_probs := sem.log_prob
       (run_actor model.actor transition.obs transition.command actor_critic_carry.1).1
       transition.action,
     values := (run_critic model.critic transition.obs transition.command
       actor_critic_carry.2).1 0 })

/-- `jax.lax.scan`. -/
def scanList {σ α β : Type _} (f : σ → α → σ × β) : σ → List α → List β × σ
  | c, [] => ([], c)
  | c, a :: rest =>
      ((f c a).2 :: (scanList f (f c a).1 rest).1, (scanList f (f c a).1 rest).2)

/-- `get_ppo_variables` (lines 1093-1135). -/
def get_ppo_variables (sem : MixtureSem) (model : Model) (depth hidden_size : ℕ)
    (trajectory : List Transition) (model_carry : List Vec × List Vec) :
    List PPOVariables × (List Vec × List Vec) :=
  scanList (scan_fn sem model depth hidden_size) model_carry trajectory

/-- The carry pair fed into scan step `t` of `get_ppo_variables`: the scan
state after consuming the first `t` transitions. -/
def carryInto (sem : MixtureSem) (model : Model) (depth hidden_size : ℕ)
    (model_carry : List Vec × List Vec) (trajectory : List Transition) (t : ℕ) :
    List Vec × List Vec :=
  (scanList (scan_fn sem model depth hidden_size) model_carry (trajectory.take t)).2

theorem scanList_append {σ α β : Type _} (f : σ → α → σ × β) (c : σ) (xs ys : List α) :
    (scanList f c (xs ++ ys)).2 = (scanList f (scanList f c xs).2 ys).2 := by
  induction xs generalizing c with
  | nil => rfl
  | cons a as ih => simp [scanList, ih]

theorem carryInto_succ (sem : MixtureSem) (model : Model) (depth hidden_size : ℕ)
    (model_carry : List Vec × List Vec) (trajectory : List Transition) (t : ℕ)
    (ht : t < trajectory.length) :
    carryInto sem model depth hidden_size model_carry trajectory (t + 1)
      = (scan_fn sem model depth hidden_size
          (carryInto sem model depth hidden_size model_carry trajectory t)
          (trajectory.get ⟨t, ht⟩)).1 := by
  unfold carryInto
  rw [List.take_succ, List.getElem?_eq_getElem ht, scanList_append]
  simp [scanList, List.get_eq_getElem]

theorem whereVec_true (x y : Vec) : whereVec true x y = x := rfl

theorem whereVec_false (x y : Vec) : whereVec false x y = y := rfl

theorem whereCarry_true (x y : List Vec) (h : x.length = y.length) :
    whereCarry true x y = x := by
  induction x generalizing y with
  | nil => rfl
  | cons a as ih =>
    cases y with
    | nil => exact absurd h (by simp)
    | cons b bs =>
      have h2 : as.length = bs.length := by simpa using h
      show whereVec true a b :: whereCarry true as bs = a :: as
      rw [whereVec_true, ih bs h2]

theorem whereCarry_false (x y : List Vec) (h : x.length = y.length) :
    whereCarry false x y = y := by
  induction x generalizing y with
  | nil =>
    cases y with
    | nil => rfl
    | cons b bs => exact absurd h (by simp)
  | cons a as ih =>
    cases y with
    | nil => exact absurd h (by simp)
    | cons b bs =>
      have h2 : as.length = bs.length := by simpa using h
      show whereVec false a b :: whereCarry false as bs = b :: bs
      rw [whereVec_false, ih bs h2]

/-- C1: in the scan of `get_ppo_variables`, whenever `done` at step `t` is
true the carry pair fed into step `t + 1` equals the all-zero initial carry
of `get_initial_model_carry` — regardless of the memory computed at step
`t` — and whenever `done` is false it equals the memory freshly computed at
step `t` by `run_actor` and `run_critic`. -/
theorem ppo_scan_resets_memory_on_done (sem : MixtureSem) (model : Model)
    (depth hidden_size : ℕ) (model_carry : List Vec × List Vec)
    (trajectory : List Transition) (t : ℕ) (ht : t < trajectory.length)
    (hA : model.actor.rnns.length = depth) (hC : model.critic.rnns.length = depth) :
    ((trajectory.get ⟨t, ht⟩).done = true →
      carryInto sem model depth hidden_size model_carry trajectory (t + 1)
        = get_initial_model_carry depth hidden_size) ∧
    ((trajectory.get ⟨t, ht⟩).done = false →
      carryInto sem model depth hidden_size model_carry trajectory (t + 1)
        = ((run_actor model.actor (trajectory.get ⟨t, ht⟩).obs
              (trajectory.get ⟨t, ht⟩).command
              (carryInto sem model depth hidden_size model_carry trajectory t).1).2,
           (run_critic model.critic (trajectory.get ⟨t, ht⟩).obs
              (trajectory.get ⟨t, ht⟩).command
              (carryInto sem model depth hidden_size model_carry trajectory t).2).2)) := by
  rw [carryInto_succ sem model depth hidden_size model_carry trajectory t ht]
  constructor
  · intro hdone
    unfold scan_fn selectNextCarry
    rw [hdone]
    unfold get_initial_model_carry
    rw [whereCarry_true _ _ (by simp [run_actor_carry_length, hA]),
        whereCarry_true _ _ (by simp [run_critic_carry_length, hC])]
  · intro hdone
    unfold scan_fn selectNextCarry
    rw [hdone]
    unfold get_initial_model_carry
    rw [whereCarry_false _ _ (by simp [run_actor_carry_length, hA]),
        whereCarry_false _ _ (by simp [run_critic_carry_length, hC])]

/-! Concrete instances for the recurrent-evaluator witnesses. -/

/-- Trivial distribution semantics. -/
def sem0 : MixtureSem :=
  { log_prob := fun _ _ => 0, sample := fun _ _ => fun _ => 0, mode := fun _ => fun _ => 0 }

/-- A concrete one-layer critic. -/
def critic1 : Critic :=
  { input_proj := fun v => v, rnns := [fun x _ => x], output_proj := fun v => v }

/-- A concrete model of depth 1. -/
def model1 : Model := { actor := actor1, critic := critic1 }

/-- The empty dictionary. -/
def smap0 : Smap := fun _ => none

/-- A transition with `done = true`. -/
def tr_done : Transition :=
  { obs := smap0, command := smap0, action := fun _ => 0, done := true }

/-- A transition with `done = false`. -/
def tr_go : Transition :=
  { obs := smap0, command := smap0, action := fun _ => 0, done := false }

/-- A two-step trajectory whose first step terminates. -/
def traj1 : List Transition := [tr_done, tr_go]

/-- A nonzero input carry pair of depth 1. -/
def carryIn1 : List Vec × List Vec := ([fun _ => 5], [fun _ => 5])

/-- Witness for C1: on a concrete depth-1 model and a two-step trajectory
with `done` true at step 0, the carry fed into step 1 is the all-zero
initial carry even though the input carry was nonzero. -/
theorem ppo_scan_resets_memory_on_done_witness :
    carryInto sem0 model1 1 8 carryIn1 traj1 1 = get_initial_model_carry 1 8 :=
  (ppo_scan_resets_memory_on_done sem0 model1 1 8 carryIn1 traj1 0
    (by norm_num [traj1]) rfl rfl).1 rfl

/-- C9: `sample_action` leaves the critic memory unchanged: the carry
returned inside the `Action` has its critic component exactly equal to the
input critic carry, for every model, carry pair, observation and command
mapping, random key and argmax flag. -/
theorem sample_action_preserves_critic_carry (sem : MixtureSem) (model : Model)
    (model_carry : List Vec × List Vec) (observations commands : Smap)
    (rng : ℕ) (argmax : Bool) :
    (sample_action sem model model_carry observations commands rng argmax).carry.2
      = model_carry.2 := rfl

/-- C8: `run_actor` reads only the nine actor inputs (timestep phase, joint
positions, joint velocities, projected gravity, imu acc, imu gyro and the
three command entries): two observation/command mappings that agree on those
nine keys — and may differ arbitrarily elsewhere, in particular on every
privileged key — give identical distributions and carries from `run_actor`,
and identical `sample_action` results for the same carry and random key. -/
theorem actor_ignores_privileged_observations (sem : MixtureSem) (model : Model)
    (model_carry : List Vec × List Vec) (obs1 obs2 cmd1 cmd2 : Smap)
    (rng : ℕ) (argmax : Bool)
    (h1 : obs1 "timestep_phase_observation" = obs2 "timestep_phase_observation")
    (h2 : obs1 "joint_position_observation" = obs2 "joint_position_observation")
    (h3 : obs1 "joint_velocity_observation" = obs2 "joint_velocity_observation")
    (h4 : obs1 "projected_gravity_observation" = obs2 "projected_gravity_observation")
    (h5 : obs1 "sensor_observation_imu_acc" = obs2 "sensor_observation_imu_acc")
    (h6 : obs1 "sensor_observation_imu_gyro" = obs2 "sensor_observation_imu_gyro")
    (h7 : cmd1 "linear_velocity_command" = cmd2 "linear_velocity_command")
    (h8 : cmd1 "angular_velocity_command" = cmd2 "angular_velocity_command")
    (h9 : cmd1 "gait_frequency_command" = cmd2 "gait_frequency_command") :
    run_actor model.actor obs1 cmd1 model_carry.1
        = run_actor model.actor obs2 cmd2 model_carry.1 ∧
    sample_action sem model model_carry obs1 cmd1 rng argmax
        = sample_action sem model model_carry obs2 cmd2 rng argmax := by
  have hra : run_actor model.actor obs1 cmd1 model_carry.1
      = run_actor model.actor obs2 cmd2 model_carry.1 := by
    unfold run_actor dget
    rw [h1, h2, h3, h4, h5, h6, h7, h8, h9]
  refine ⟨hra, ?_⟩
  unfold sample_action
  rw [hra]

/-- A dictionary holding only the privileged key `feet_contact_observation`,
with value 1. -/
def privObs1 : Smap :=
  fun k => if k = "feet_contact_observation" then some (fun _ => 1) else none

/-- Same dictionary but with a different privileged value 2. -/
def privObs2 : Smap :=
  fun k => if k = "feet_contact_observation" then some (fun _ => 2) else none

theorem privObs_agree (k : String) (hk : ¬ k = "feet_contact_observation") :
    privObs1 k = privObs2 k := by
  unfold privObs1 privObs2
  rw [if_neg hk, if_neg hk]

/-- Witness for C8: two concrete observation mappings differing only in the
privileged key `feet_contact_observation` give identical `run_actor` and
`sample_action` results. -/
theorem actor_ignores_privileged_observations_witness :
    run_actor model1.actor privObs1 smap0 carryIn1.1
        = run_actor model1.actor privObs2 smap0 carryIn1.1 ∧
    sample_action sem0 model1 carryIn1 privObs1 smap0 0 true
        = sample_action sem0 model1 carryIn1 privObs2 smap0 0 true :=
  actor_ignores_privileged_observations sem0 model1 carryIn1 privObs1 privObs2
    smap0 smap0 0 true
    (privObs_agree _ (by decide)) (privObs_agree _ (by decide))
    (privObs_agree _ (by decide)) (privObs_agree _ (by decide))
    (privObs_agree _ (by decide)) (privObs_agree _ (by decide))
    rfl rfl rfl

/-! The reward terms as functions of a stored trajectory: each term reads
named time series from the trajectory's observation/command dictionaries,
either after an explicit membership check (a `ValueError` naming the key)
or by direct dictionary access (a plain `KeyError` when absent). -/

/-- An error raised by a reward term: an explicit `raise ValueError(msg)`,
or the `KeyError` a Python mapping raises on a missing key. -/
inductive RewardError where
  | valueError (msg : String)
  | keyError (key : String)

/-- `ksim.Trajectory` as the reward terms read it: dictionaries of per-key
time series (one vector per timestep), the joint-position series `qpos` and
the elapsed-time series `timestep`. -/
structure Trajectory where
  obs : String → Option (List Vec)
  command : String → Option (List Vec)
  qpos : List Vec
  timestep : List ℝ

/-- Python dictionary access `d[k]`: `KeyError k` when the key is absent. -/
def lookupKey (m : String → Option (List Vec)) (k : String) :
    Except RewardError (List Vec) :=
  match m k with
  | some v => .ok v
  | none => .error (.keyError k)

theorem lookupKey_none {m : String → Option (List Vec)} {k : String}
    (h : m k = none) : lookupKey m k = .error (.keyError k) := by
  unfold lookupKey
  rw [h]

theorem lookupKey_some {m : String → Option (List Vec)} {k : String} {v : List Vec}
    (h : m k = some v) : lookupKey m k = .ok v := by
  unfold lookupKey
  rw [h]

theorem except_bind_error {ε α β : Type _} (e : ε) (f : α → Except ε β) :
    Except.bind (Except.error e) f = Except.error e := rfl

theorem except_bind_ok {ε α β : Type _} (a : α) (f : α → Except ε β) :
    Except.bind (Except.ok a) f = f a := rfl

/-- Elementwise map over three time series (`jnp` broadcasting over the
time axis). -/
def zipWith3 {α₁ α₂ α₃ β : Type _} (f : α₁ → α₂ → α₃ → β) :
    List α₁ → List α₂ → List α₃ → List β
  | a :: as, b :: bs, c :: cs => f a b c :: zipWith3 f as bs cs
  | _, _, _ => []

/-- Elementwise map over five time series. -/
def zipWith5 {α₁ α₂ α₃ α₄ α₅ β : Type _} (f : α₁ → α₂ → α₃ → α₄ → α₅ → β) :
    List α₁ → List α₂ → List α₃ → List α₄ → List α₅ → List β
  | a :: as, b :: bs, c :: cs, d :: ds, e :: es =>
      f a b c d e :: zipWith5 f as bs cs ds es
  | _, _, _, _, _ => []

theorem zipWith3_cons {α₁ α₂ α₃ β : Type _} (f : α₁ → α₂ → α₃ → β)
    (a : α₁) (b : α₂) (c : α₃) (as : List α₁) (bs : List α₂) (cs : List α₃) :
    zipWith3 f (a :: as) (b :: bs) (c :: cs) = f a b c :: zipWith3 f as bs cs := rfl

theorem zipWith3_getElem {α₁ α₂ α₃ β : Type _} (f : α₁ → α₂ → α₃ → β)
    (as : List α₁) (bs : List α₂) (cs : List α₃) (i : ℕ) {a b c}
    (ha : as[i]? = some a) (hb : bs[i]? = some b) (hc : cs[i]? = some c) :
    (zipWith3 f as bs cs)[i]? = some (f a b c) := by
  induction as generalizing bs cs i with
  | nil => simp at ha
  | cons a0 as ih =>
    cases bs with
    | nil => simp at hb
    | cons b0 bs =>
      cases cs with
      | nil => simp at hc
      | cons c0 cs =>
        cases i with
        | zero =>
          simp only [List.getElem?_cons_zero, Option.some.injEq] at ha hb hc
          subst ha; subst hb; subst hc
          rw [zipWith3_cons, List.getElem?_cons_zero]
        | succ n =>
          simp only [List.getElem?_cons_succ] at ha hb hc
          rw [zipWith3_cons, List.getElem?_cons_succ]
          exact ih bs cs n ha hb hc

theorem zipWith5_cons {α₁ α₂ α₃ α₄ α₅ β : Type _} (f : α₁ → α₂ → α₃ → α₄ → α₅ → β)
    (a : α₁) (b : α₂) (c : α₃) (d : α₄) (e : α₅)
    (as : List α₁) (bs : List α₂) (cs : List α₃) (ds : List α₄) (es : List α₅) :
    zipWith5 f (a :: as) (b :: bs) (c :: cs) (d :: ds) (e :: es)
      = f a b c d e :: zipWith5 f as bs cs ds es := rfl

theorem zipWith5_getElem {α₁ α₂ α₃ α₄ α₅ β : Type _} (f : α₁ → α₂ → α₃ → α₄ → α₅ → β)
    (as : List α₁) (bs : List α₂) (cs : List α₃) (ds : List α₄) (es : List α₅)
    (i : ℕ) {a b c d e}
    (ha : as[i]? = some a) (hb : bs[i]? = some b) (hc : cs[i]? = some c)
    (hd : ds[i]? = some d) (he : es[i]? = some e) :
    (zipWith5 f as bs cs ds es)[i]? = some (f a b c d e) := by
  induction as generalizing bs cs ds es i with
  | nil => simp at ha
  | cons a0 as ih =>
    cases bs with
    | nil => simp at hb
    | cons b0 bs =>
      cases cs with
      | nil => simp at hc
      | cons c0 cs =>
        cases ds with
        | nil => simp at hd
        | cons d0 ds =>
          cases es with
          | nil => simp at he
          | cons e0 es =>
            cases i with
            | zero =>
              simp only [List.getElem?_cons_zero, Option.some.injEq] at ha hb hc hd he
              subst ha; subst hb; subst hc; subst hd; subst he
              rw [zipWith5_cons, List.getElem?_cons_zero]
            | succ n =>
              simp only [List.getElem?_cons_succ] at ha hb hc hd he
              rw [zipWith5_cons, List.getElem?_cons_succ]
              exact ih bs cs ds es n ha hb hc hd he

/-- Per-timestep body of `FeetPhaseReward.get_reward` (lines 269-292):
squared error between the recorded foot heights (entries 2 and 5 of the
feet-position vector) and the desired heights at the clock phase, shaped by
`exp (-error / sensitivity)`, then gated to zero unless
`command_norm > stand_still_threshold` (a strict inequality). -/
def FeetPhaseReward.stepReward (R : FeetPhaseRewardCfg)
    (gait_freq foot_pos vel_cmd ang_vel_cmd : Vec) (timestep : ℝ) : ℝ :=
  Real.exp (-((foot_pos 2
        - gait_phase (FeetPhaseReward.phaseAt R gait_freq timestep).1 R.max_foot_height) ^ 2
      + (foot_pos 5
        - gait_phase (FeetPhaseReward.phaseAt R gait_freq timestep).2 R.max_foot_height) ^ 2)
      / R.sensitivity)
    * (if cmdNorm vel_cmd ang_vel_cmd > R.stand_still_threshold then 1 else 0)

/-- `FeetPhaseReward.get_reward` (lines 263-294): membership checks for the
feet-position observation and the gait-frequency command raise a descriptive
`ValueError`; the linear/angular velocity commands are direct accesses. -/
def FeetPhaseReward.get_reward (R : FeetPhaseRewardCfg) (trajectory : Trajectory) :
    Except RewardError (List ℝ) :=
  if (trajectory.obs R.feet_pos_obs_name).isNone then
    .error (.valueError ("Observation " ++ R.feet_pos_obs_name
      ++ " not found; add it as an observation in your task."))
  else if (trajectory.command R.gait_freq_cmd_name).isNone then
    .error (.valueError ("Command " ++ R.gait_freq_cmd_name
      ++ " not found; add it as a command in your task."))
  else
    Except.bind (lookupKey trajectory.command R.gait_freq_cmd_name) fun gait_freq_n =>
    Except.bind (lookupKey trajectory.obs R.feet_pos_obs_name) fun foot_pos =>
    Except.bind (lookupKey trajectory.command R.linear_velocity_cmd_name) fun vel_cmd =>
    Except.bind (lookupKey trajectory.command R.angular_velocity_cmd_name) fun ang_vel_cmd =>
    Except.ok (zipWith5 (FeetPhaseReward.stepReward R) gait_freq_n foot_pos vel_cmd
      ang_vel_cmd trajectory.timestep)

/-- Configuration of `StandStillReward` (lines 434-444; `joint_targets` has
no source default). -/
structure StandStillRewardCfg where
  sensitivity : ℝ := 0.01
  linear_velocity_cmd_name : String := "linear_velocity_command"
  angular_velocity_cmd_name : String := "angular_velocity_command"
  joint_targets : List ℝ
  stand_still_threshold : ℝ := 0

/-- Per-timestep body of `StandStillReward.get_reward` (lines 446-457):
squared deviation of `qpos[7:]` from the joint targets, shaped by
`exp (-error / sensitivity)`, gated to zero unless
`cmd_norm < stand_still_threshold` (a strict inequality). -/
def StandStillReward.stepReward (R : StandStillRewardCfg)
    (vel_cmd ang_vel_cmd q : Vec) : ℝ :=
  Real.exp (-(∑ j ∈ Finset.range R.joint_targets.length,
      (q (7 + j) - R.joint_targets.getD j 0) ^ 2) / R.sensitivity)
    * (if cmdNorm vel_cmd ang_vel_cmd < R.stand_still_threshold then 1 else 0)

/-- `StandStillReward.get_reward` (lines 446-457): performs no membership
validation; both command reads are direct dictionary accesses. -/
def StandStillReward.get_reward (R : StandStillRewardCfg) (trajectory : Trajectory) :
    Except RewardError (List ℝ) :=
  Except.bind (lookupKey trajectory.command R.linear_velocity_cmd_name) fun vel_cmd =>
  Except.bind (lookupKey trajectory.command R.angular_velocity_cmd_name) fun ang_vel_cmd =>
  Except.ok (zipWith3 (StandStillReward.stepReward R) vel_cmd ang_vel_cmd trajectory.qpos)

/-- Configuration of `LinearVelocityTrackingReward` (lines 314-322). -/
structure LinearVelocityTrackingRewardCfg where
  error_scale : ℝ := 0.25
  linvel_obs_name : String := "sensor_observation_base_site_linvel"
  command_name : String := "linear_velocity_command"
  stand_still_threshold : ℝ := 0

/-- Per-timestep body of `LinearVelocityTrackingReward.get_reward` (lines
328-335). `xax.get_norm (x, "l2")` is external library code modelled from
the spec's description of the tracking error as pointwise squared error,
summed over the two planar components. -/
def LinearVelocityTrackingReward.stepReward (R : LinearVelocityTrackingRewardCfg)
    (command linvel : Vec) : ℝ :=
  Real.exp (-((command 0 - linvel 0) ^ 2 + (command 1 - linvel 1) ^ 2) / R.error_scale)
    * (if normVec command 2 > R.stand_still_threshold then 1 else 0)

/-- `LinearVelocityTrackingReward.get_reward` (lines 324-335): the linear
velocity observation is membership-checked (descriptive `ValueError`), but
`trajectory.command[self.command_name]` is a direct access. -/
def LinearVelocityTrackingReward.get_reward (R : LinearVelocityTrackingRewardCfg)
    (trajectory : Trajectory) : Except RewardError (List ℝ) :=
  if (trajectory.obs R.linvel_obs_name).isNone then
    .error (.valueError ("Observation " ++ R.linvel_obs_name
      ++ " not found; add it as an observation in your task."))
  else
    Except.bind (lookupKey trajectory.command R.command_name) fun command =>
    Except.bind (lookupKey trajectory.obs R.linvel_obs_name) fun linvel =>
    Except.ok (List.zipWith (LinearVelocityTrackingReward.stepReward R) command linvel)

/-- Configuration of `FeetSlipPenalty` (lines 380-386). -/
structure FeetSlipPenaltyCfg where
  com_vel_obs_name : String := "center_of_mass_velocity_observation"
  feet_contact_obs_name : String := "feet_contact_observation"

/-- Per-timestep body of `FeetSlipPenalty.get_reward` (lines 393-397): the
planar center-of-mass speed times each of the four contact indicators,
summed. -/
def FeetSlipPenalty.stepReward (contact com_vel : Vec) : ℝ :=
  ∑ i ∈ Finset.range 4, Real.sqrt (com_vel 0 ^ 2 + com_vel 1 ^ 2) * contact i

/-- `FeetSlipPenalty.get_reward` (lines 388-397): the feet-contact
observation is membership-checked (descriptive `ValueError`), but the
center-of-mass velocity observation is a direct access. -/
def FeetSlipPenalty.get_reward (R : FeetSlipPenaltyCfg) (trajectory : Trajectory) :
    Except RewardError (List ℝ) :=
  if (trajectory.obs R.feet_contact_obs_name).isNone then
    .error (.valueError ("Observation " ++ R.feet_contact_obs_name
      ++ " not found; add it as an observation in your task."))
  else
    Except.bind (lookupKey trajectory.obs R.feet_contact_obs_name) fun contact =>
    Except.bind (lookupKey trajectory.obs R.com_vel_obs_name) fun com_vel =>
    Except.ok (List.zipWith FeetSlipPenalty.stepReward contact com_vel)

/-- Whether a reward result is the descriptive configuration error
(an explicit `ValueError`). -/
def isValueError : Except RewardError (List ℝ) → Bool
  | .error (.valueError _) => true
  | _ => false

/-- The reward value at step `i` of a term's output; `none` when the term
raised or the index is out of range. -/
def rewardAt (r : Except RewardError (List ℝ)) (i : ℕ) : Option ℝ :=
  match r with
  | .ok l => l[i]?
  | .error _ => none

/-- C6 amended: each reward term raises the descriptive `ValueError` naming
the missing key only for the keys it explicitly membership-checks; the keys
the claim singles out — `LinearVelocityTrackingReward`'s command key,
`StandStillReward`'s two command keys and `FeetSlipPenalty`'s center-of-mass
velocity observation key — are read by direct dictionary access, so a
missing one surfaces as a plain `KeyError` (which names the key but is not
the descriptive configuration error). -/
theorem reward_missing_key_errors (Rl : LinearVelocityTrackingRewardCfg)
    (Rs : StandStillRewardCfg) (Rf : FeetSlipPenaltyCfg) (traj : Trajectory) :
    (traj.obs Rl.linvel_obs_name = none →
      LinearVelocityTrackingReward.get_reward Rl traj
        = Except.error (.valueError ("Observation " ++ Rl.linvel_obs_name
            ++ " not found; add it as an observation in your task."))) ∧
    (∀ w, traj.obs Rl.linvel_obs_name = some w → traj.command Rl.command_name = none →
      LinearVelocityTrackingReward.get_reward Rl traj
        = Except.error (.keyError Rl.command_name)) ∧
    (traj.command Rs.linear_velocity_cmd_name = none →
      StandStillReward.get_reward Rs traj
        = Except.error (.keyError Rs.linear_velocity_cmd_name)) ∧
    (∀ w, traj.command Rs.linear_velocity_cmd_name = some w →
      traj.command Rs.angular_velocity_cmd_name = none →
      StandStillReward.get_reward Rs traj
        = Except.error (.keyError Rs.angular_velocity_cmd_name)) ∧
    (traj.obs Rf.feet_contact_obs_name = none →
      FeetSlipPenalty.get_reward Rf traj
        = Except.error (.valueError ("Observation " ++ Rf.feet_contact_obs_name
            ++ " not found; add it as an observation in your task."))) ∧
    (∀ w, traj.obs Rf.feet_contact_obs_name = some w →
      traj.obs Rf.com_vel_obs_name = none →
      FeetSlipPenalty.get_reward Rf traj
        = Except.error (.keyError Rf.com_vel_obs_name)) := by
  refine ⟨?_, ?_, ?_, ?_, ?_, ?_⟩
  · intro h
    unfold LinearVelocityTrackingReward.get_reward
    rw [h]
    rfl
  · intro w hw hc
    unfold LinearVelocityTrackingReward.get_reward
    rw [hw, lookupKey_none hc]
    rfl
  · intro h
    unfold StandStillReward.get_reward
    rw [lookupKey_none h]
    rfl
  · intro w hw hc
    unfold StandStillReward.get_reward
    rw [lookupKey_some hw, except_bind_ok, lookupKey_none hc]
    rfl
  · intro h
    unfold FeetSlipPenalty.get_reward
    rw [h]
    rfl
  · intro w hw hc
    unfold FeetSlipPenalty.get_reward
    rw [hw, lookupKey_some hw, except_bind_ok, lookupKey_none hc]
    rfl

/-- The empty trajectory: no observations, no commands. -/
def trajEmpty : Trajectory :=
  { obs := fun _ => none, command := fun _ => none, qpos := [], timestep := [] }

/-- A `StandStillReward` configuration at the source's default key names. -/
def ssCfg1 : StandStillRewardCfg := { joint_targets := [] }

/-- Counterexample to C6 as stated: `StandStillReward.get_reward` performs
no validation of its required command keys; on a trajectory lacking
`linear_velocity_command` it surfaces the mapping's plain `KeyError`, not a
descriptive configuration `ValueError`. -/
theorem stand_still_missing_key_not_value_error :
    StandStillReward.get_reward ssCfg1 trajEmpty
        = Except.error (.keyError "linear_velocity_command") ∧
    isValueError (StandStillReward.get_reward ssCfg1 trajEmpty) = false :=
  ⟨rfl, rfl⟩

/-- C10: at a trajectory step whose concatenated command norm is exactly
the stand-still threshold, both gates are strict inequalities, so
`FeetPhaseReward` (gated by `command_norm > threshold`) and
`StandStillReward` (gated by `cmd_norm < threshold`) both return exactly 0
at that step. -/
theorem threshold_boundary_both_rewards_zero
    (Rf : FeetPhaseRewardCfg) (Rs : StandStillRewardCfg) (traj : Trajectory) (i : ℕ)
    (gS fpS vS aS : List Vec) (g fp v a q : Vec) (ts : ℝ)
    (hfp : traj.obs Rf.feet_pos_obs_name = some fpS)
    (hg : traj.command Rf.gait_freq_cmd_name = some gS)
    (hvf : traj.command Rf.linear_velocity_cmd_name = some vS)
    (haf : traj.command Rf.angular_velocity_cmd_name = some aS)
    (hvs : traj.command Rs.linear_velocity_cmd_name = some vS)
    (has2 : traj.command Rs.angular_velocity_cmd_name = some aS)
    (hgi : gS[i]? = some g) (hfpi : fpS[i]? = some fp) (hvi : vS[i]? = some v)
    (hai : aS[i]? = some a) (hqi : traj.qpos[i]? = some q)
    (htsi : traj.timestep[i]? = some ts)
    (hnf : cmdNorm v a = Rf.stand_still_threshold)
    (hns : cmdNorm v a = Rs.stand_still_threshold) :
    rewardAt (FeetPhaseReward.get_reward Rf traj) i = some 0 ∧
    rewardAt (StandStillReward.get_reward Rs traj) i = some 0 := by
  have hokf : FeetPhaseReward.get_reward Rf traj
      = Except.ok (zipWith5 (FeetPhaseReward.stepReward Rf) gS fpS vS aS
          traj.timestep) := by
    unfold FeetPhaseReward.get_reward
    rw [hfp, hg, lookupKey_some hg, lookupKey_some hfp, lookupKey_some hvf,
      lookupKey_some haf]
    rfl
  have hoks : StandStillReward.get_reward Rs traj
      = Except.ok (zipWith3 (StandStillReward.stepReward Rs) vS aS traj.qpos) := by
    unfold StandStillReward.get_reward
    rw [lookupKey_some hvs, except_bind_ok, lookupKey_some has2, except_bind_ok]
  have hstepf : FeetPhaseReward.stepReward Rf g fp v a ts = 0 := by
    unfold FeetPhaseReward.stepReward
    rw [hnf, if_neg (lt_irrefl _), mul_zero]
  have hsteps : StandStillReward.stepReward Rs v a q = 0 := by
    unfold StandStillReward.stepReward
    rw [hns, if_neg (lt_irrefl _), mul_zero]
  constructor
  · rw [hokf]
    simp only [rewardAt]
    rw [zipWith5_getElem _ gS fpS vS aS traj.timestep i hgi hfpi hvi hai htsi, hstepf]
  · rw [hoks]
    simp only [rewardAt]
    rw [zipWith3_getElem _ vS aS traj.qpos i hvi hai hqi, hsteps]

/-- `FeetPhaseReward` configuration with stand-still threshold 1. -/
def fpCfg1 : FeetPhaseRewardCfg := { stand_still_threshold := 1 }

/-- `StandStillReward` configuration with stand-still threshold 1. -/
def ssCfgT : StandStillRewardCfg := { joint_targets := [], stand_still_threshold := 1 }

/-- A one-step trajectory whose command (1, 0, 0) has norm exactly 1. -/
def trajW : Trajectory :=
  { obs := fun k => if k = "feet_position_observation" then some [vec0] else none,
    command := fun k =>
      if k = "gait_frequency_command" then some [gf1]
      else if k = "linear_velocity_command" then some [vel1]
      else if k = "angular_velocity_command" then some [ang0] else none,
    qpos := [vec0],
    timestep := [0] }

theorem trajW_obs_fp : trajW.obs "feet_position_observation" = some [vec0] := by
  show (if ("feet_position_observation" : String) = "feet_position_observation"
    then some [vec0] else none) = some [vec0]
  rw [if_pos rfl]

theorem trajW_cmd_g : trajW.command "gait_frequency_command" = some [gf1] := by
  show (if ("gait_frequency_command" : String) = "gait_frequency_command"
      then some [gf1]
    else if ("gait_frequency_command" : String) = "linear_velocity_command"
      then some [vel1]
    else if ("gait_frequency_command" : String) = "angular_velocity_command"
      then some [ang0]
    else none) = some [gf1]
  rw [if_pos rfl]

theorem trajW_cmd_v : trajW.command "linear_velocity_command" = some [vel1] := by
  show (if ("linear_velocity_command" : String) = "gait_frequency_command"
      then some [gf1]
    else if ("linear_velocity_command" : String) = "linear_velocity_command"
      then some [vel1]
    else if ("linear_velocity_command" : String) = "angular_velocity_command"
      then some [ang0]
    else none) = some [vel1]
  rw [if_neg (by decide), if_pos rfl]

theorem trajW_cmd_a : trajW.command "angular_velocity_command" = some [ang0] := by
  show (if ("angular_velocity_command" : String) = "gait_frequency_command"
      then some [gf1]
    else if ("angular_velocity_command" : String) = "linear_velocity_command"
      then some [vel1]
    else if ("angular_velocity_command" : String) = "angular_velocity_command"
      then some [ang0]
    else none) = some [ang0]
  rw [if_neg (by decide), if_neg (by decide), if_pos rfl]

/-- Witness for C10: on the concrete one-step trajectory with command
(1, 0, 0) of norm exactly the configured threshold 1, both reward terms are
0 at step 0. -/
theorem threshold_boundary_both_rewards_zero_witness :
    rewardAt (FeetPhaseReward.get_reward fpCfg1 trajW) 0 = some 0 ∧
    rewardAt (StandStillReward.get_reward ssCfgT trajW) 0 = some 0 :=
  threshold_boundary_both_rewards_zero fpCfg1 ssCfgT trajW 0 [gf1] [vec0] [vel1] [ang0]
    gf1 vec0 vel1 ang0 vec0 0
    trajW_obs_fp trajW_cmd_g trajW_cmd_v trajW_cmd_a trajW_cmd_v trajW_cmd_a
    rfl rfl rfl rfl rfl rfl
    (by rw [cmdNorm_vel1]; norm_num [fpCfg1])
    (by rw [cmdNorm_vel1]; norm_num [ssCfgT])

end

end Kbot
